import Mathlib

/-!  Verification development for the symbol-insert task generator: a shallow
embedding of src/config.py (configuration validation) and src/generator.py
(task generation, colour assignment, layout, static rendering, the fade-in and
slide-and-shift compositors and the animation frame assembly), together with
theorems settling the specification claims. -/

/-- Symbols are glyph strings ("●", "A", …), compared by equality. -/
abbrev Glyph := String

/-- An RGB colour triple. -/
abbrev Color := ℤ × ℤ × ℤ

/-- The SYMBOL_COLORS palette from generator.py. -/
def SYMBOL_COLORS : List Color :=
  [(220, 60, 60), (60, 60, 220), (60, 180, 60), (220, 160, 60), (160, 60, 220),
   (60, 180, 180), (220, 60, 160), (100, 150, 60), (220, 120, 60), (80, 80, 200)]

/-- The "shapes" alphabet from SYMBOL_SETS in generator.py. -/
def shapesSet : List Glyph :=
  ["●", "▲", "■", "★", "◆", "♥", "◯", "△", "□", "☆", "◇", "♦", "▼", "▶", "◀"]

/-- The "letters" alphabet from SYMBOL_SETS in generator.py. -/
def lettersSet : List Glyph :=
  ["A", "B", "C", "D", "E", "F", "G", "H", "I", "J", "K", "L", "M",
   "N", "O", "P", "Q", "R", "S", "T", "U", "V", "W", "X", "Y", "Z"]

/-- The "numbers" alphabet from SYMBOL_SETS in generator.py. -/
def numbersSet : List Glyph :=
  ["0", "1", "2", "3", "4", "5", "6", "7", "8", "9"]

/-- The "mixed" alphabet from SYMBOL_SETS in generator.py. -/
def mixedSet : List Glyph :=
  ["●", "▲", "■", "★", "A", "B", "C", "1", "2", "3", "X", "Y", "Z"]

/-- The SYMBOL_SETS dictionary from generator.py, as an association list. -/
def SYMBOL_SETS : List (String × List Glyph) :=
  [("shapes", shapesSet), ("letters", lettersSet),
   ("numbers", numbersSet), ("mixed", mixedSet)]

/-- SymbolInsertGenerator.__init__ line 46:
SYMBOL_SETS.get(config.symbol_set, SYMBOL_SETS["shapes"]) — a dict lookup with
the shapes alphabet as the default for unknown names; it never raises. -/
def selectSymbolSet (name : String) : List Glyph :=
  match SYMBOL_SETS.lookup name with
  | some s => s
  | none => shapesSet

/-- TaskConfig from src/config.py, restricted to the fields the generator core
reads (image_size split into width and height). -/
structure TaskConfig where
  image_width : ℤ
  image_height : ℤ
  min_sequence_length : ℤ
  max_sequence_length : ℤ
  symbol_set : String
  symbol_size : ℤ
deriving DecidableEq

/-- The default TaskConfig of src/config.py: image_size (800, 200),
min_sequence_length 4, max_sequence_length 8, symbol_set "shapes",
symbol_size 60. -/
def defaultConfig : TaskConfig :=
  ⟨800, 200, 4, 8, "shapes", 60⟩

/-- The pydantic Field constraints of TaskConfig (config.py lines 57-81):
min_sequence_length has ge=3 le=8, max_sequence_length has ge=4 le=12,
symbol_size has ge=40 le=100.  Pydantic checks each field against its own
bounds at construction; there is no validator relating two fields. -/
def validateTaskConfig (cfg : TaskConfig) : Bool :=
  decide (3 ≤ cfg.min_sequence_length) && decide (cfg.min_sequence_length ≤ 8) &&
  decide (4 ≤ cfg.max_sequence_length) && decide (cfg.max_sequence_length ≤ 12) &&
  decide (40 ≤ cfg.symbol_size) && decide (cfg.symbol_size ≤ 100)

/-- The ambient pseudo-random source (Python's seeded global `random` module):
a deterministic tape of naturals together with a read position.  Fixing the
seed fixes the tape, so a run of the generator is a pure function of the
tape. -/
structure PyRand where
  tape : ℕ → ℕ
  pos : ℕ

/-- Read one raw value from the random tape. -/
def PyRand.next (g : PyRand) : ℕ × PyRand :=
  (g.tape g.pos, ⟨g.tape, g.pos + 1⟩)

/-- Python's random.randint(lo, hi): raises ValueError when the range is
empty (lo > hi), otherwise returns a value v with lo ≤ v ≤ hi, consuming
random state.  Modelled from the Python standard library contract. -/
def randint (lo hi : ℤ) (g : PyRand) : Except String (ℤ × PyRand) :=
  if hi < lo then .error "empty range in randrange"
  else
    let (n, g1) := g.next
    .ok (lo + (n : ℤ) % (hi - lo + 1), g1)

/-- Selection core of Python's random.sample: draw k elements, each removed
from the remaining pool after being picked, so the result is k distinct
positions of the pool.  Modelled from the Python standard library contract
(the stdlib's internal index arithmetic differs, but the observable contract —
k pairwise-distinct-position picks, deterministic given the random state — is
the same). -/
def sampleAux : ℕ → List Glyph → PyRand → List Glyph × PyRand
  | 0, _, g => ([], g)
  | _ + 1, [], g => ([], g)
  | k + 1, x :: xs, g =>
      let (n, g1) := g.next
      let idx := n % (x :: xs).length
      let chosen := (x :: xs).getD idx x
      let rest := (x :: xs).eraseIdx idx
      let (l, g2) := sampleAux k rest g1
      (chosen :: l, g2)

/-- Python's random.sample(pop, k): raises ValueError when k is negative or
exceeds the population size, else returns k distinct-position elements. -/
def pySample (pop : List Glyph) (k : ℤ) (g : PyRand) :
    Except String (List Glyph × PyRand) :=
  if k < 0 then .error "Sample larger than population or is negative"
  else if (pop.length : ℤ) < k then .error "Sample larger than population or is negative"
  else .ok (sampleAux k.toNat pop g)

/-- Python's random.choice(l): raises IndexError on an empty sequence, else
returns one element of l. -/
def pyChoice (l : List Glyph) (g : PyRand) : Except String (Glyph × PyRand) :=
  match l with
  | [] => .error "Cannot choose from an empty sequence"
  | x :: xs =>
      let (n, g1) := (PyRand.next g)
      .ok ((x :: xs).getD (n % (x :: xs).length) x, g1)

/-- The random outputs of generate_task_pair (generator.py lines 53-99):
the before-sequence, the inserted symbol, the 0-indexed insertion position and
the spliced after-sequence.  usedFallback records whether the line 63-65
branch (available_symbols empty, fall back to the whole alphabet) was taken. -/
structure GenResult where
  sequence : List Glyph
  insert_symbol : Glyph
  insert_position : ℤ
  final_sequence : List Glyph
  usedFallback : Bool
deriving DecidableEq

/-- The random core of generate_task_pair (generator.py lines 53-73): draw the
sequence length with randint, the sequence with sample, the insertion symbol
with choice over the not-yet-used symbols (falling back to the full alphabet
when none remain), the insertion position with randint, and splice. -/
def generateCore (cfg : TaskConfig) (symbols : List Glyph) (g : PyRand) :
    Except String GenResult :=
  match randint cfg.min_sequence_length cfg.max_sequence_length g with
  | .error e => .error e
  | .ok (seqLen, g1) =>
    match pySample symbols seqLen g1 with
    | .error e => .error e
    | .ok (sequence, g2) =>
      let available0 := symbols.filter (fun s => !(decide (s ∈ sequence)))
      let fallback := available0.isEmpty
      let available := if fallback then symbols else available0
      match pyChoice available g2 with
      | .error e => .error e
      | .ok (insert_symbol, g3) =>
        match randint 0 (sequence.length : ℤ) g3 with
        | .error e => .error e
        | .ok (insert_position, _) =>
          .ok ⟨sequence, insert_symbol, insert_position,
               sequence.take insert_position.toNat ++
                 insert_symbol :: sequence.drop insert_position.toNat,
               fallback⟩

/-- _create_color_map (generator.py lines 101-106), with the iteration order
of Python's set(all_symbols) made explicit: given the deduplicated symbol list
in the order the set iterates it, symbol number i receives
SYMBOL_COLORS[i % len(SYMBOL_COLORS)]. -/
def create_color_map (setOrder : List Glyph) : List (Glyph × Color) :=
  setOrder.enum.map (fun p => (p.2, SYMBOL_COLORS.getD (p.1 % SYMBOL_COLORS.length) (0, 0, 0)))

/-- One possible iteration order of Python's set(l) for a list of strings:
first occurrences in list order.  CPython's actual order depends on the
per-process string hash seed; any duplicate-free reordering is realisable. -/
def setOrderFwd (l : List Glyph) : List Glyph :=
  l.dedup

/-- Another possible iteration order of Python's set(l): the reverse of the
first-occurrence order.  Same members, no duplicates — a legitimate set
iteration order under a different string hash seed. -/
def setOrderRev (l : List Glyph) : List Glyph :=
  l.dedup.reverse

/-- The output of generate_task_pair that the determinism claim speaks about:
the random core together with the symbol-to-colour assignment. -/
structure GenOutput where
  core : GenResult
  color_map : List (Glyph × Color)
deriving DecidableEq

/-- generate_task_pair (generator.py lines 53-99) up to the data the claims
observe: the random core, then the colour map built from the set-iteration
order of the final sequence (the rendering, prompt and video steps consume the
results but feed nothing back into this tuple).  setOrder is the ambient
set-iteration order of the Python process. -/
def generate_task_pair (cfg : TaskConfig) (symbols : List Glyph)
    (setOrder : List Glyph → List Glyph) (g : PyRand) :
    Except String GenOutput :=
  match generateCore cfg symbols g with
  | .error e => .error e
  | .ok r => .ok ⟨r, create_color_map (setOrder r.final_sequence)⟩

/-- Symbol spacing (generator.py lines 119, 200, 230, 274):
spacing = symbol_size + 20. -/
def spacing (symbol_size : ℤ) : ℤ :=
  symbol_size + 20

/-- Total content width of an n-symbol row (generator.py line 120):
total_width = n * spacing - 20. -/
def totalWidth (symbol_size : ℤ) (n : ℕ) : ℤ :=
  (n : ℤ) * spacing symbol_size - 20

/-- Left edge of a centred n-symbol row (generator.py line 121):
start_x = (width - total_width) // 2, with Python floor division. -/
def startX (cfg : TaskConfig) (n : ℕ) : ℤ :=
  Int.fdiv (cfg.image_width - totalWidth cfg.symbol_size n) 2

/-- Vertical centre of the canvas (generator.py line 122):
center_y = height // 2. -/
def centerY (cfg : TaskConfig) : ℤ :=
  Int.fdiv cfg.image_height 2

/-- Python's int() on a real value: truncation toward zero.  The animation
arithmetic is modelled over ℚ; for the magnitudes the generator produces
(multiples of 1/frames of integer spans) the float evaluation and the exact
rational evaluation truncate to the same integer. -/
def pythonInt (q : ℚ) : ℤ :=
  if 0 ≤ q then ⌊q⌋ else -⌊-q⌋

/-- A colour map as produced by create_color_map: an association list. -/
abbrev ColorMap := List (Glyph × Color)

/-- One _draw_symbol call (generator.py lines 135-148), recorded by its target
centre point (x, y) — the glyph-bounding-box centring offset is applied
identically to every draw, so centre coordinates identify positions — plus the
colour looked up in the colour map and the compositing alpha (draw.text on an
RGB canvas is opaque, alpha 255). -/
structure DrawCall where
  sym : Glyph
  x : ℤ
  y : ℤ
  color : Option Color
  alpha : ℤ
deriving DecidableEq

/-- The enumerate-loop of _render_sequence (generator.py lines 129-131),
generalised over the starting index: symbol number i of the remaining list is
drawn at x = x0 + i * sp, y = cy. -/
def drawRow (cmap : ColorMap) (x0 sp cy : ℤ) : ℕ → List Glyph → List DrawCall
  | _, [] => []
  | i, s :: rest =>
      ⟨s, x0 + (i : ℤ) * sp, cy, cmap.lookup s, 255⟩ :: drawRow cmap x0 sp cy (i + 1) rest

/-- _render_sequence (generator.py lines 108-133) as the list of draw calls it
issues: each symbol i at (start_x + i * spacing, center_y).  An empty sequence
returns the blank canvas, i.e. no draw calls. -/
def renderSequence (cfg : TaskConfig) (sequence : List Glyph) (cmap : ColorMap) :
    List DrawCall :=
  drawRow cmap (startX cfg sequence.length) (spacing cfg.symbol_size) (centerY cfg) 0 sequence

/-- _render_fade_in_frame (generator.py lines 224-266) as its draw calls: the
base sequence rendered exactly as _render_sequence, then the new symbol
composited at x = start_x + insert_pos * spacing of the PRE-insertion layout,
y = center_y - symbol_size, with alpha = int(255 * alpha_progress). -/
def renderFadeInFrame (cfg : TaskConfig) (sequence : List Glyph) (new_symbol : Glyph)
    (insert_pos : ℕ) (cmap : ColorMap) (alpha_progress : ℚ) : List DrawCall :=
  renderSequence cfg sequence cmap ++
    [⟨new_symbol,
      startX cfg sequence.length + (insert_pos : ℤ) * spacing cfg.symbol_size,
      centerY cfg - cfg.symbol_size,
      cmap.lookup new_symbol,
      pythonInt (255 * alpha_progress)⟩]

/-- The interpolation loop of _render_slide_and_shift_frame (generator.py
lines 293-306), generalised over the starting index: symbol number i moves
from initial_start_x + i * spacing toward final_start_x + i * spacing when
i < insert_pos, and toward final_start_x + (i + 1) * spacing otherwise, at
interpolation parameter p, the result truncated by int(). -/
def slideRow (cmap : ColorMap) (isx fsx sp cy : ℤ) (insert_pos : ℕ) (p : ℚ) :
    ℕ → List Glyph → List DrawCall
  | _, [] => []
  | i, s :: rest =>
      let initX : ℤ := isx + (i : ℤ) * sp
      let finX : ℤ := if i < insert_pos then fsx + (i : ℤ) * sp else fsx + ((i : ℤ) + 1) * sp
      ⟨s, pythonInt ((initX : ℚ) + ((finX : ℚ) - (initX : ℚ)) * p), cy, cmap.lookup s, 255⟩ ::
        slideRow cmap isx fsx sp cy insert_pos p (i + 1) rest

/-- _render_slide_and_shift_frame (generator.py lines 268-316) as its draw
calls: every original symbol interpolated between the pre- and post-insertion
layouts, then the new symbol at the fixed x = final_start_x + insert_pos *
spacing with y interpolated from center_y - symbol_size down to center_y. -/
def renderSlideShiftFrame (cfg : TaskConfig) (sequence : List Glyph)
    (new_symbol : Glyph) (insert_pos : ℕ) (cmap : ColorMap) (p : ℚ) : List DrawCall :=
  let sp := spacing cfg.symbol_size
  let isx := startX cfg sequence.length
  let fsx := startX cfg (sequence.length + 1)
  let cy := centerY cfg
  let startY := cy - cfg.symbol_size
  slideRow cmap isx fsx sp cy insert_pos p 0 sequence ++
    [⟨new_symbol, fsx + (insert_pos : ℤ) * sp,
      pythonInt ((startY : ℚ) + ((cy : ℚ) - (startY : ℚ)) * p),
      cmap.lookup new_symbol, 255⟩]

/-- An animation frame: a Python image object, modelled as its allocation
number (object identity — each render call allocates a fresh image, while
Python list repetition copies references) together with the draw calls that
produced its pixels. -/
abbrev Frame := ℕ × List DrawCall

/-- _create_animation_frames (generator.py lines 190-222): hold_frames copies
of ONE freshly rendered before-image (allocation 0), then one fresh fade-in
frame per fade step i at progress (i+1)/fade_frames (allocations 1 …
fade_frames), then one fresh slide frame per slide step i at progress
(i+1)/slide_frames, then hold_frames copies of ONE freshly rendered
after-image.  shift_frames is accepted and unused, as in the source. -/
def createAnimationFrames (cfg : TaskConfig) (initial_seq final_seq : List Glyph)
    (insert_symbol : Glyph) (insert_pos : ℕ) (cmap : ColorMap)
    (hold_frames fade_frames slide_frames shift_frames : ℕ) : List Frame :=
  List.replicate hold_frames (0, renderSequence cfg initial_seq cmap) ++
  (List.range fade_frames).map (fun i =>
    ((1 + i : ℕ), renderFadeInFrame cfg initial_seq insert_symbol insert_pos cmap
      (((i : ℚ) + 1) / (fade_frames : ℚ)))) ++
  (List.range slide_frames).map (fun i =>
    ((1 + fade_frames + i : ℕ), renderSlideShiftFrame cfg initial_seq insert_symbol insert_pos cmap
      (((i : ℚ) + 1) / (slide_frames : ℚ)))) ++
  List.replicate hold_frames (1 + fade_frames + slide_frames, renderSequence cfg final_seq cmap)

/-- The all-zeros random tape: every raw draw reads 0. -/
def zeroTape : PyRand := ⟨fun _ => 0, 0⟩

/-- A TaskConfig whose fields each satisfy their own pydantic bounds but with
min_sequence_length (8) above max_sequence_length (4). -/
def badRangeConfig : TaskConfig := ⟨800, 200, 8, 4, "shapes", 60⟩

/-- The all-threes random tape: every raw draw reads 3. -/
def threeTape : PyRand := ⟨fun _ => 3, 0⟩

/-- A valid TaskConfig (all per-field bounds hold) whose length range [8, 12]
allows lengths above the 10-symbol "numbers" alphabet. -/
def elevenConfig : TaskConfig := ⟨800, 200, 8, 12, "numbers", 60⟩

/-- The output of generate_task_pair on the default config, shapes alphabet
and all-zeros tape, under the first-occurrence set-iteration order. -/
def runFwd : GenOutput :=
  ⟨⟨["●", "▲", "■", "★"], "◆", 0, ["◆", "●", "▲", "■", "★"], false⟩,
   create_color_map (setOrderFwd ["◆", "●", "▲", "■", "★"])⟩

/-- The output of the same run under the reversed set-iteration order: same
random core, colour map built from the reversed enumeration. -/
def runRev : GenOutput :=
  ⟨⟨["●", "▲", "■", "★"], "◆", 0, ["◆", "●", "▲", "■", "★"], false⟩,
   create_color_map (setOrderRev ["◆", "●", "▲", "■", "★"])⟩

/-- Claim C10: constructing the generator with a symbol_set string naming no
known symbol set does not raise; the generator silently falls back to the
"shapes" symbol set. -/
theorem c10_unknown_symbol_set_falls_back_to_shapes (name : String)
    (h1 : name ≠ "shapes") (h2 : name ≠ "letters")
    (h3 : name ≠ "numbers") (h4 : name ≠ "mixed") :
    selectSymbolSet name = shapesSet := by
  unfold selectSymbolSet SYMBOL_SETS
  simp [List.lookup, beq_eq_false_iff_ne.mpr h1, beq_eq_false_iff_ne.mpr h2,
    beq_eq_false_iff_ne.mpr h3, beq_eq_false_iff_ne.mpr h4]

/-- Witness for C10 at the concrete unknown name "stars". -/
theorem c10_witness :
    selectSymbolSet "stars" = shapesSet :=
  c10_unknown_symbol_set_falls_back_to_shapes "stars"
    (by decide) (by decide) (by decide) (by decide)

/-- Counterexample to claim C5 as stated: the config with
min_sequence_length = 8 > max_sequence_length = 4 passes pydantic field
validation (each field is within its own ge/le bounds), and generation then
raises a hard error from random.randint's empty range. -/
theorem c5_counterexample :
    validateTaskConfig badRangeConfig = true ∧
    badRangeConfig.max_sequence_length < badRangeConfig.min_sequence_length ∧
    generate_task_pair badRangeConfig shapesSet setOrderFwd zeroTape =
      .error "empty range in randrange" := by
  refine ⟨by decide, by decide, rfl⟩

/-- Claim C5 amended: pydantic validates each field only against its own
bounds, so a config with min_sequence_length > max_sequence_length (both in
range) is accepted at validation time, and generate_task_pair then raises the
empty-range error from random.randint for every random state. -/
theorem c5_amended_min_above_max_raises_at_generation (cfg : TaskConfig)
    (symbols : List Glyph) (setOrder : List Glyph → List Glyph) (g : PyRand)
    (hv : validateTaskConfig cfg = true)
    (hm : cfg.max_sequence_length < cfg.min_sequence_length) :
    generate_task_pair cfg symbols setOrder g = .error "empty range in randrange" := by
  have hkeep := hv
  unfold generate_task_pair generateCore randint
  rw [if_pos hm]

/-- Witness for the amended C5 at the concrete bad-range config. -/
theorem c5_amended_witness :
    validateTaskConfig badRangeConfig = true ∧
    generate_task_pair badRangeConfig lettersSet setOrderFwd zeroTape =
      .error "empty range in randrange" :=
  ⟨by decide,
   c5_amended_min_above_max_raises_at_generation badRangeConfig lettersSet setOrderFwd
     zeroTape (by decide) (by decide)⟩

/-- Counterexample to claim C3 as stated: with the default configuration
hold 5, fade 8, slide 10 (shift 8, unused) the frame sequence has
2*5 + 8 + 10 = 28 frames, not 31. -/
theorem c3_counterexample :
    (createAnimationFrames defaultConfig ["●", "▲", "■"] ["●", "★", "▲", "■"]
        "★" 1 [] 5 8 10 8).length = 28 ∧ (28 : ℕ) ≠ 31 := by
  constructor
  · simp [createAnimationFrames]
  · decide

/-- Claim C3 amended: the animation frame sequence has exactly
2 * hold_frames + fade_frames + slide_frames frames; with the default
configuration hold 5, fade 8, slide 10 this is 28 (the spec total of 31 can
only be reached by also counting the unused shift_frames parameter). -/
theorem c3_amended_animation_length (cfg : TaskConfig) (initial_seq final_seq : List Glyph)
    (insert_symbol : Glyph) (insert_pos : ℕ) (cmap : ColorMap) (k f s sh : ℕ) :
    (createAnimationFrames cfg initial_seq final_seq insert_symbol insert_pos cmap
        k f s sh).length = 2 * k + f + s ∧
    (createAnimationFrames cfg initial_seq final_seq insert_symbol insert_pos cmap
        5 8 10 8).length = 2 * 5 + 8 + 10 := by
  constructor <;> simp [createAnimationFrames] <;> omega

/-- Python's int() of an integer-valued rational is that integer. -/
theorem pythonInt_intCast (z : ℤ) : pythonInt ((z : ℚ)) = z := by
  unfold pythonInt
  split
  · exact Int.floor_intCast z
  · rw [← Int.cast_neg, Int.floor_intCast, neg_neg]

/-- drawRow issues one draw call per symbol. -/
theorem drawRow_length (cmap : ColorMap) (x0 sp cy : ℤ) (i : ℕ) (l : List Glyph) :
    (drawRow cmap x0 sp cy i l).length = l.length := by
  induction l generalizing i with
  | nil => rfl
  | cons s rest ih => simp [drawRow, ih]

/-- drawRow over a concatenation: the second block starts at the shifted
index. -/
theorem drawRow_append (cmap : ColorMap) (x0 sp cy : ℤ) (i : ℕ) (l1 l2 : List Glyph) :
    drawRow cmap x0 sp cy i (l1 ++ l2) =
      drawRow cmap x0 sp cy i l1 ++ drawRow cmap x0 sp cy (i + l1.length) l2 := by
  induction l1 generalizing i with
  | nil => simp [drawRow]
  | cons s rest ih =>
      simp only [List.cons_append, drawRow, List.length_cons]
      rw [show (rest.append l2) = rest ++ l2 from rfl, ih (i + 1),
        show i + 1 + rest.length = i + (rest.length + 1) by omega]

/-- The j-th draw call of drawRow places the j-th remaining symbol at
x0 + (i + j) * sp. -/
theorem drawRow_get (cmap : ColorMap) (x0 sp cy : ℤ) (i : ℕ) (l : List Glyph)
    (j : ℕ) (h : j < l.length) :
    (drawRow cmap x0 sp cy i l).get? j =
      some ⟨l.get ⟨j, h⟩, x0 + ((i : ℤ) + (j : ℤ)) * sp, cy, cmap.lookup (l.get ⟨j, h⟩), 255⟩ := by
  induction l generalizing i j with
  | nil => simp at h
  | cons s rest ih =>
      cases j with
      | zero => simp [drawRow, List.get]
      | succ j =>
          have hj : j < rest.length := by simpa using h
          simp only [drawRow, List.get?_cons_succ, ih (i + 1) j hj, List.get]
          congr 2
          push_cast
          ring

/-- Counterexample to claim C6 as stated: at the first fade frame (i = 0) of
the default f = 8, the code composites the new symbol with alpha
int(255 * 1/8) = 31, while the claimed formula round(255 * 1/8) gives 32.
(The position parts of the frame are as claimed: the pre-insertion slot x for
insert position 1 is 370 and the elevated y is 100 - 60 = 40.) -/
theorem c6_counterexample :
    (renderFadeInFrame defaultConfig ["●", "▲", "■"] "★" 1 []
        (((0 : ℚ) + 1) / (8 : ℚ))).getLast? =
      some ⟨"★", 370, 40, none, 31⟩ ∧
    round ((255 : ℚ) * (((0 : ℚ) + 1) / (8 : ℚ))) = 32 ∧ (31 : ℤ) ≠ 32 := by
  refine ⟨?_, ?_, by decide⟩
  · simp only [renderFadeInFrame, List.getLast?_concat, Option.some.injEq, DrawCall.mk.injEq]
    norm_num [pythonInt]
    decide
  · norm_num [round_eq]

/-- Claim C6 amended: during the fade-in phase the inserted symbol is
composited at the pre-insertion layout's slot x for the insert position with
y one symbol-height above the vertical centre, and its opacity at frame i of
f is int-truncation ⌊255 * (i+1)/f⌋ (not round), which still reaches exactly
255 on the last fade frame. -/
theorem c6_amended_fade_frame (cfg : TaskConfig) (sequence : List Glyph)
    (new_symbol : Glyph) (insert_pos : ℕ) (cmap : ColorMap) (f i : ℕ)
    (hif : i < f) :
    renderFadeInFrame cfg sequence new_symbol insert_pos cmap
        (((i : ℚ) + 1) / (f : ℚ)) =
      renderSequence cfg sequence cmap ++
        [⟨new_symbol,
          startX cfg sequence.length + (insert_pos : ℤ) * spacing cfg.symbol_size,
          centerY cfg - cfg.symbol_size, cmap.lookup new_symbol,
          ⌊(255 * ((i : ℚ) + 1)) / (f : ℚ)⌋⟩] ∧
    (i + 1 = f →
      pythonInt (255 * (((i : ℚ) + 1) / (f : ℚ))) = 255) := by
  have hf : 0 < f := lt_of_le_of_lt (Nat.zero_le i) hif
  have hfq : (0 : ℚ) < (f : ℚ) := by exact_mod_cast hf
  have hp : (0 : ℚ) ≤ 255 * (((i : ℚ) + 1) / (f : ℚ)) := by positivity
  constructor
  · simp only [renderFadeInFrame, pythonInt, if_pos hp, mul_div_assoc]
  · intro h
    have hiq : ((i : ℚ) + 1) = (f : ℚ) := by exact_mod_cast h
    rw [hiq, div_self (ne_of_gt hfq), mul_one, pythonInt,
      if_pos (by norm_num : (0 : ℚ) ≤ 255)]
    norm_num

/-- Witness for the amended C6 at the last default fade frame f = 8, i = 7:
the truncated alpha there is ⌊255 * 8/8⌋ and int(255 * 8/8) = 255. -/
theorem c6_amended_witness :
    renderFadeInFrame defaultConfig ["●"] "▲" 0 [] (((7 : ℚ) + 1) / (8 : ℚ)) =
      renderSequence defaultConfig ["●"] [] ++
        [⟨"▲", startX defaultConfig 1 + (0 : ℤ) * spacing defaultConfig.symbol_size,
          centerY defaultConfig - defaultConfig.symbol_size, List.lookup "▲" [],
          ⌊(255 * ((7 : ℚ) + 1)) / (8 : ℚ)⌋⟩] ∧
    (7 + 1 = 8 → pythonInt (255 * (((7 : ℚ) + 1) / (8 : ℚ))) = 255) :=
  c6_amended_fade_frame defaultConfig ["●"] "▲" 0 [] 8 7 (by decide)

/-- Counterexample to claim C7 as stated: in the default config with
before-sequence ["●","▲","■"] and insert position 1, the fade-in phase
composites the inserted "★" at x = 370 (the pre-insertion layout's slot 1),
while the slide-and-shift phase draws it at the fixed x = 330 — which is also
its slot x in the "after" static image.  370 ≠ 330: the fade-in x is NOT
where the symbol eventually lands. -/
theorem c7_counterexample :
    (renderFadeInFrame defaultConfig ["●", "▲", "■"] "★" 1 []
        ((1 : ℚ) / 8)).getLast? = some ⟨"★", 370, 40, none, 31⟩ ∧
    (renderSlideShiftFrame defaultConfig ["●", "▲", "■"] "★" 1 []
        ((1 : ℚ) / 10)).getLast? = some ⟨"★", 330, 46, none, 255⟩ ∧
    (renderSequence defaultConfig ["●", "★", "▲", "■"] []).get? 1 =
      some ⟨"★", 330, 100, none, 255⟩ ∧
    (370 : ℤ) ≠ 330 := by
  refine ⟨?_, ?_, ?_, by decide⟩
  · simp only [renderFadeInFrame, List.getLast?_concat, Option.some.injEq, DrawCall.mk.injEq]
    norm_num [pythonInt]
    decide
  · have h1 : centerY defaultConfig = 100 := by decide
    have h2 : startX defaultConfig (List.length ["●", "▲", "■"] + 1) = 250 := by decide
    simp only [renderSlideShiftFrame, List.getLast?_concat, Option.some.injEq,
      DrawCall.mk.injEq, h1, h2]
    norm_num [pythonInt, defaultConfig, spacing]
  · have h2 : startX defaultConfig (List.length ["●", "★", "▲", "■"]) = 250 := by decide
    simp only [renderSequence, drawRow, h2]
    decide

/-- Claim C7 amended: throughout the fade-in phase the inserted symbol is
composited at the PRE-insertion layout's slot x for the insert position,
startX(n) + pos * spacing; throughout the slide-and-shift phase, and in the
"after" static image, it sits at the POST-insertion layout's slot x,
startX(n+1) + pos * spacing.  These two x-coordinates always differ (the
post-insertion one is strictly smaller) for any symbol size within the
configured bounds, so the fade-in x is not where the symbol lands. -/
theorem c7_amended_fade_x_vs_final_x (cfg : TaskConfig) (sequence : List Glyph)
    (new_symbol : Glyph) (insert_pos : ℕ) (cmap : ColorMap) (ap p : ℚ)
    (hpos : insert_pos ≤ sequence.length) (hsz : 40 ≤ cfg.symbol_size) :
    (renderFadeInFrame cfg sequence new_symbol insert_pos cmap ap).getLast? =
      some ⟨new_symbol,
        startX cfg sequence.length + (insert_pos : ℤ) * spacing cfg.symbol_size,
        centerY cfg - cfg.symbol_size, cmap.lookup new_symbol, pythonInt (255 * ap)⟩ ∧
    ((renderSlideShiftFrame cfg sequence new_symbol insert_pos cmap p).getLast?.map
        (fun d => d.x)) =
      some (startX cfg (sequence.length + 1) + (insert_pos : ℤ) * spacing cfg.symbol_size) ∧
    (renderSequence cfg (sequence.take insert_pos ++ new_symbol :: sequence.drop insert_pos)
        cmap).get? insert_pos =
      some ⟨new_symbol,
        startX cfg (sequence.length + 1) + (insert_pos : ℤ) * spacing cfg.symbol_size,
        centerY cfg, cmap.lookup new_symbol, 255⟩ ∧
    startX cfg (sequence.length + 1) + (insert_pos : ℤ) * spacing cfg.symbol_size
      < startX cfg sequence.length + (insert_pos : ℤ) * spacing cfg.symbol_size := by
  refine ⟨?_, ?_, ?_, ?_⟩
  · simp only [renderFadeInFrame, List.getLast?_concat]
  · simp only [renderSlideShiftFrame, List.getLast?_concat, Option.map_some']
  · have hlen : (sequence.take insert_pos ++ new_symbol :: sequence.drop insert_pos).length =
        sequence.length + 1 := by
      simp only [List.length_append, List.length_cons, List.length_take, List.length_drop]
      omega
    have hget : (sequence.take insert_pos ++ new_symbol :: sequence.drop insert_pos).get?
        insert_pos = some new_symbol := by
      rw [List.get?_append_right (by simp [List.length_take])]
      simp [List.length_take, Nat.min_eq_left hpos]
    have hlt : insert_pos < (sequence.take insert_pos ++
        new_symbol :: sequence.drop insert_pos).length := by omega
    have hval : (sequence.take insert_pos ++ new_symbol :: sequence.drop insert_pos).get
        ⟨insert_pos, hlt⟩ = new_symbol := by
      have := List.get?_eq_get hlt
      rw [hget] at this
      exact (Option.some.inj this).symm
    rw [renderSequence, hlen, drawRow_get _ _ _ _ _ _ _ hlt, hval]
    norm_num
  · have hmono : startX cfg (sequence.length + 1) < startX cfg sequence.length := by
      unfold startX totalWidth spacing
      rw [Int.fdiv_eq_ediv _ (by norm_num), Int.fdiv_eq_ediv _ (by norm_num)]
      have hf : ((sequence.length : ℤ) + 1) * (cfg.symbol_size + 20) =
          (sequence.length : ℤ) * (cfg.symbol_size + 20) + (cfg.symbol_size + 20) := by ring
      push_cast
      omega
    omega

/-- Witness for the amended C7 at the default config, before=["●","▲","■"],
insert position 1: fade x is 370, slide/after x is 330 < 370. -/
theorem c7_amended_witness :
    (renderFadeInFrame defaultConfig ["●", "▲", "■"] "★" 1 [] ((2 : ℚ) / 8)).getLast? =
      some ⟨"★",
        startX defaultConfig 3 + (1 : ℤ) * spacing defaultConfig.symbol_size,
        centerY defaultConfig - defaultConfig.symbol_size, List.lookup "★" [],
        pythonInt (255 * ((2 : ℚ) / 8))⟩ ∧
    ((renderSlideShiftFrame defaultConfig ["●", "▲", "■"] "★" 1 [] ((2 : ℚ) / 10)).getLast?.map
        (fun d => d.x)) =
      some (startX defaultConfig 4 + (1 : ℤ) * spacing defaultConfig.symbol_size) ∧
    (renderSequence defaultConfig ["●", "★", "▲", "■"] []).get? 1 =
      some ⟨"★", startX defaultConfig 4 + (1 : ℤ) * spacing defaultConfig.symbol_size,
        centerY defaultConfig, List.lookup "★" [], 255⟩ ∧
    startX defaultConfig 4 + (1 : ℤ) * spacing defaultConfig.symbol_size
      < startX defaultConfig 3 + (1 : ℤ) * spacing defaultConfig.symbol_size := by
  have h := c7_amended_fade_x_vs_final_x defaultConfig ["●", "▲", "■"] "★" 1 []
    ((2 : ℚ) / 8) ((2 : ℚ) / 10) (by decide) (by decide)
  simpa using h

/-- A successful randint draw lies in [lo, hi]. -/
theorem randint_ok_bounds (lo hi : ℤ) (g : PyRand) (v : ℤ) (g' : PyRand)
    (h : randint lo hi g = .ok (v, g')) : lo ≤ v ∧ v ≤ hi := by
  unfold randint at h
  split at h
  · exact absurd h (by simp)
  · rename_i hle
    simp only [PyRand.next, Except.ok.injEq, Prod.mk.injEq] at h
    obtain ⟨hv, -⟩ := h
    have h1 : 0 ≤ ((g.tape g.pos : ℤ)) % (hi - lo + 1) := Int.emod_nonneg _ (by omega)
    have h2 : ((g.tape g.pos : ℤ)) % (hi - lo + 1) < hi - lo + 1 :=
      Int.emod_lt_of_pos _ (by omega)
    omega

/-- sampleAux returns exactly k picks when the pool is large enough. -/
theorem sampleAux_length (k : ℕ) (pool : List Glyph) (g : PyRand)
    (h : k ≤ pool.length) : (sampleAux k pool g).1.length = k := by
  induction k generalizing pool g with
  | zero => rfl
  | succ k ih =>
      cases pool with
      | nil => simp at h
      | cons x xs =>
          simp only [sampleAux, List.length_cons, PyRand.next]
          have hidx : g.tape g.pos % (xs.length + 1) < xs.length + 1 :=
            Nat.mod_lt _ (Nat.succ_pos _)
          have hrest : ((x :: xs).eraseIdx (g.tape g.pos % (xs.length + 1))).length
              = xs.length := by
            rw [List.length_eraseIdx]
            simp only [List.length_cons, if_pos hidx]
            omega
          rw [ih _ _ (by rw [hrest]; simpa using h)]

/-- A successful sample has exactly the requested number of elements, and the
request was within the population size. -/
theorem pySample_ok_length (pop : List Glyph) (k : ℤ) (g : PyRand)
    (l : List Glyph) (g' : PyRand) (h : pySample pop k g = .ok (l, g')) :
    l.length = k.toNat ∧ k ≤ (pop.length : ℤ) := by
  unfold pySample at h
  split at h
  · exact absurd h (by simp)
  · split at h
    · exact absurd h (by simp)
    · rename_i hneg hle
      injection h with h
      have hl : l = (sampleAux k.toNat pop g).1 := by rw [h]
      subst hl
      exact ⟨sampleAux_length _ _ _ (by omega), by omega⟩

/-- random.sample raises when asked for more elements than the population
holds. -/
theorem pySample_error_of_too_large (pop : List Glyph) (k : ℤ) (g : PyRand)
    (hk : (pop.length : ℤ) < k) :
    pySample pop k g = .error "Sample larger than population or is negative" := by
  unfold pySample
  rw [if_neg (by omega), if_pos hk]

/-- Inversion of a successful generateCore run: the four random draws that
produced it, the splice equation and the fallback flag. -/
theorem generateCore_ok (cfg : TaskConfig) (symbols : List Glyph) (g : PyRand)
    (r : GenResult) (h : generateCore cfg symbols g = .ok r) :
    ∃ seqLen g1 g2 g3 g4,
      randint cfg.min_sequence_length cfg.max_sequence_length g = .ok (seqLen, g1) ∧
      pySample symbols seqLen g1 = .ok (r.sequence, g2) ∧
      pyChoice (if (symbols.filter (fun s => !(decide (s ∈ r.sequence)))).isEmpty
          then symbols else symbols.filter (fun s => !(decide (s ∈ r.sequence)))) g2 =
        .ok (r.insert_symbol, g3) ∧
      randint 0 (r.sequence.length : ℤ) g3 = .ok (r.insert_position, g4) ∧
      r.final_sequence = r.sequence.take r.insert_position.toNat ++
        r.insert_symbol :: r.sequence.drop r.insert_position.toNat ∧
      r.usedFallback = (symbols.filter (fun s => !(decide (s ∈ r.sequence)))).isEmpty := by
  unfold generateCore at h
  cases h1 : randint cfg.min_sequence_length cfg.max_sequence_length g with
  | error e => rw [h1] at h; exact absurd h (by simp)
  | ok p =>
      obtain ⟨seqLen, g1⟩ := p
      rw [h1] at h
      dsimp only at h
      cases h2 : pySample symbols seqLen g1 with
      | error e => rw [h2] at h; exact absurd h (by simp)
      | ok q =>
          obtain ⟨sequence, g2⟩ := q
          rw [h2] at h
          dsimp only at h
          cases h3 : pyChoice (if (symbols.filter (fun s => !(decide (s ∈ sequence)))).isEmpty
              then symbols else symbols.filter (fun s => !(decide (s ∈ sequence)))) g2 with
          | error e => rw [h3] at h; exact absurd h (by simp)
          | ok u =>
              obtain ⟨insert_symbol, g3⟩ := u
              rw [h3] at h
              dsimp only at h
              cases h4 : randint 0 (sequence.length : ℤ) g3 with
              | error e => rw [h4] at h; exact absurd h (by simp)
              | ok w =>
                  obtain ⟨insert_position, g4⟩ := w
                  rw [h4] at h
                  dsimp only at h
                  injection h with h
                  subst h
                  refine ⟨seqLen, g1, g2, g3, g4, ?_, ?_, ?_, ?_, rfl, rfl⟩ <;>
                    dsimp only <;> assumption

/-- Claim C2: every successfully generated task instance satisfies the splice
invariant after == before[:p] + [s] + before[p:], the length invariant
len(after) == len(before) + 1, the position bound 0 <= p <= len(before), and
len(before) lies within the validated [min_sequence_length,
max_sequence_length] range. -/
theorem c2_splice_and_length_invariants (cfg : TaskConfig) (symbols : List Glyph)
    (setOrder : List Glyph → List Glyph) (g : PyRand) (out : GenOutput)
    (hv : validateTaskConfig cfg = true)
    (hok : generate_task_pair cfg symbols setOrder g = .ok out) :
    out.core.final_sequence =
      out.core.sequence.take out.core.insert_position.toNat ++
        out.core.insert_symbol :: out.core.sequence.drop out.core.insert_position.toNat ∧
    out.core.final_sequence.length = out.core.sequence.length + 1 ∧
    0 ≤ out.core.insert_position ∧
    out.core.insert_position ≤ (out.core.sequence.length : ℤ) ∧
    cfg.min_sequence_length ≤ (out.core.sequence.length : ℤ) ∧
    (out.core.sequence.length : ℤ) ≤ cfg.max_sequence_length := by
  unfold generate_task_pair at hok
  cases hc : generateCore cfg symbols g with
  | error e => rw [hc] at hok; exact absurd hok (by simp)
  | ok r =>
      rw [hc] at hok
      injection hok with hok
      subst hok
      obtain ⟨seqLen, g1, g2, g3, g4, h1, h2, h3, h4, hfin, hfb⟩ :=
        generateCore_ok _ _ _ _ hc
      obtain ⟨hmin, hmax⟩ := randint_ok_bounds _ _ _ _ _ h1
      obtain ⟨hlen, hle⟩ := pySample_ok_length _ _ _ _ _ h2
      obtain ⟨hp0, hpl⟩ := randint_ok_bounds _ _ _ _ _ h4
      simp only [validateTaskConfig, Bool.and_eq_true, decide_eq_true_eq] at hv
      dsimp only
      refine ⟨hfin, ?_, hp0, hpl, ?_, ?_⟩
      · rw [hfin]
        simp only [List.length_append, List.length_cons, List.length_take, List.length_drop]
        omega
      · omega
      · omega

/-- Witness for C2: a complete concrete run with the default config, the
shapes alphabet and the all-zeros tape. -/
theorem c2_witness :
    (generate_task_pair defaultConfig shapesSet setOrderFwd zeroTape =
      .ok ⟨⟨["●", "▲", "■", "★"], "◆", 0, ["◆", "●", "▲", "■", "★"], false⟩,
        create_color_map (setOrderFwd ["◆", "●", "▲", "■", "★"])⟩) ∧
    (["◆", "●", "▲", "■", "★"] : List Glyph) =
      (["●", "▲", "■", "★"] : List Glyph).take (0 : ℤ).toNat ++
        "◆" :: (["●", "▲", "■", "★"] : List Glyph).drop (0 : ℤ).toNat ∧
    (["◆", "●", "▲", "■", "★"] : List Glyph).length =
      (["●", "▲", "■", "★"] : List Glyph).length + 1 ∧
    (0 : ℤ) ≤ 0 ∧ (0 : ℤ) ≤ ((["●", "▲", "■", "★"] : List Glyph).length : ℤ) ∧
    defaultConfig.min_sequence_length ≤ ((["●", "▲", "■", "★"] : List Glyph).length : ℤ) ∧
    ((["●", "▲", "■", "★"] : List Glyph).length : ℤ) ≤ defaultConfig.max_sequence_length := by
  have hok : generate_task_pair defaultConfig shapesSet setOrderFwd zeroTape =
      .ok ⟨⟨["●", "▲", "■", "★"], "◆", 0, ["◆", "●", "▲", "■", "★"], false⟩,
        create_color_map (setOrderFwd ["◆", "●", "▲", "■", "★"])⟩ := rfl
  have h := c2_splice_and_length_invariants defaultConfig shapesSet setOrderFwd zeroTape
    _ (by decide) hok
  exact ⟨hok, h.1, h.2.1, h.2.2.1, h.2.2.2.1, h.2.2.2.2.1, h.2.2.2.2.2⟩

/-- Claim C9: once the length draw seqLen is fixed, (a) if seqLen exceeds the
alphabet size, generate_task_pair raises the random.sample error rather than
degrading to replacement, and (b) on success the with-replacement fallback
branch was taken exactly when the sampled sequence uses the whole alphabet. -/
theorem c9_oversized_draw_errors_fallback_only_full (cfg : TaskConfig)
    (symbols : List Glyph) (setOrder : List Glyph → List Glyph) (g : PyRand)
    (seqLen : ℤ) (g1 : PyRand)
    (h1 : randint cfg.min_sequence_length cfg.max_sequence_length g = .ok (seqLen, g1)) :
    ((symbols.length : ℤ) < seqLen →
      generate_task_pair cfg symbols setOrder g =
        .error "Sample larger than population or is negative") ∧
    (∀ out, generate_task_pair cfg symbols setOrder g = .ok out →
      (out.core.usedFallback = true ↔ ∀ s ∈ symbols, s ∈ out.core.sequence)) := by
  constructor
  · intro hbig
    unfold generate_task_pair generateCore
    rw [h1]
    dsimp only
    rw [pySample_error_of_too_large _ _ _ hbig]
  · intro out hok
    unfold generate_task_pair at hok
    cases hc : generateCore cfg symbols g with
    | error e => rw [hc] at hok; exact absurd hok (by simp)
    | ok r =>
        rw [hc] at hok
        injection hok with hok
        subst hok
        obtain ⟨seqLen2, g12, g2, g3, g4, h12, h2, h3, h4, hfin, hfb⟩ :=
          generateCore_ok _ _ _ _ hc
        dsimp only
        rw [hfb]
        simp [List.isEmpty_iff, List.filter_eq_nil]

/-- Witness for C9: with the valid config whose range is [8, 12] and the
10-symbol numbers alphabet, the all-threes tape draws length 11 > 10 and
generation raises the sample error. -/
theorem c9_witness :
    ((numbersSet.length : ℤ) < 11) ∧
    generate_task_pair elevenConfig numbersSet setOrderFwd threeTape =
      .error "Sample larger than population or is negative" :=
  ⟨by decide,
   (c9_oversized_draw_errors_fallback_only_full elevenConfig numbersSet setOrderFwd
      threeTape 11 ⟨fun _ => 3, 1⟩ rfl).1 (by decide)⟩

/-- Counterexample to claim C4 as stated: two runs with the same seed (the
same random tape) and the same config, differing only in the ambient
set-iteration order of Python's set() — here the first-occurrence order
versus its reverse, both legitimate duplicate-free enumerations of the same
symbol set — produce identical (before, after, position, symbol) data but
DIFFERENT symbol-to-colour assignments, so the full tuple is not reproduced. -/
theorem c4_counterexample :
    (setOrderRev ["◆", "●", "▲", "■", "★"]).Perm
      (setOrderFwd ["◆", "●", "▲", "■", "★"]) ∧
    (setOrderRev ["◆", "●", "▲", "■", "★"]).Nodup ∧
    (generate_task_pair defaultConfig shapesSet setOrderFwd zeroTape).toOption.map
        (fun o => o.core) =
      (generate_task_pair defaultConfig shapesSet setOrderRev zeroTape).toOption.map
        (fun o => o.core) ∧
    (generate_task_pair defaultConfig shapesSet setOrderFwd zeroTape).toOption.map
        (fun o => o.color_map) ≠
      (generate_task_pair defaultConfig shapesSet setOrderRev zeroTape).toOption.map
        (fun o => o.color_map) := by
  exact ⟨by decide, by decide, rfl, by decide⟩

/-- Claim C4 amended: with the random tape (seed) and config fixed, the
(before, after, position, symbol) data is identical across runs regardless of
the ambient set-iteration order; the colour map — and hence the full tuple —
is also identical provided the two processes enumerate the deduplicated symbol
set of the final sequence in the same order.  (CPython's per-process string
hash randomisation can change that order, which changes the colours.) -/
theorem c4_amended_determinism (cfg : TaskConfig) (symbols : List Glyph)
    (ord1 ord2 : List Glyph → List Glyph) (g : PyRand) (o1 o2 : GenOutput)
    (h1 : generate_task_pair cfg symbols ord1 g = .ok o1)
    (h2 : generate_task_pair cfg symbols ord2 g = .ok o2) :
    o1.core = o2.core ∧
    (ord1 o1.core.final_sequence = ord2 o2.core.final_sequence → o1 = o2) := by
  unfold generate_task_pair at h1 h2
  cases hc : generateCore cfg symbols g with
  | error e =>
      rw [hc] at h1
      exact absurd h1 (by simp)
  | ok r =>
      rw [hc] at h1
      rw [hc] at h2
      injection h1 with h1
      injection h2 with h2
      subst h1
      subst h2
      refine ⟨rfl, ?_⟩
      intro he
      dsimp only at he ⊢
      rw [he]

/-- Witness for the amended C4 at the concrete forward/reverse runs. -/
theorem c4_amended_witness :
    runFwd.core = runRev.core ∧
    (setOrderFwd runFwd.core.final_sequence = setOrderRev runRev.core.final_sequence →
      runFwd = runRev) :=
  c4_amended_determinism defaultConfig shapesSet setOrderFwd setOrderRev zeroTape
    runFwd runRev rfl rfl

/-- getD on the left block of a concatenation. -/
theorem listGetD_append_left {α : Type} (l1 l2 : List α) (i : ℕ) (d : α)
    (h : i < l1.length) : (l1 ++ l2).getD i d = l1.getD i d := by
  induction l1 generalizing i with
  | nil => simp at h
  | cons a rest ih =>
      cases i with
      | zero => rfl
      | succ i => exact ih i (by simpa using h)

/-- getD on the right block of a concatenation. -/
theorem listGetD_append_right {α : Type} (l1 l2 : List α) (i : ℕ) (d : α)
    (h : l1.length ≤ i) : (l1 ++ l2).getD i d = l2.getD (i - l1.length) d := by
  induction l1 generalizing i with
  | nil => simp
  | cons a rest ih =>
      cases i with
      | zero => simp at h
      | succ i =>
          simp only [List.cons_append, List.getD, List.length_cons]
          have := ih i (by simpa using h)
          simp only [List.getD] at this
          simpa using this

/-- getD inside a replicate block. -/
theorem listGetD_replicate {α : Type} (n : ℕ) (a : α) (i : ℕ) (d : α)
    (h : i < n) : (List.replicate n a).getD i d = a := by
  induction n generalizing i with
  | zero => simp at h
  | succ n ih =>
      cases i with
      | zero => rfl
      | succ i => exact ih i (by omega)

/-- getD inside a mapped range block. -/
theorem listGetD_map_range {α : Type} (n : ℕ) (fn : ℕ → α) (i : ℕ) (d : α)
    (h : i < n) : (((List.range n).map fn).getD i d) = fn i := by
  induction n with
  | zero => simp at h
  | succ n ih =>
      rcases Nat.lt_or_ge i n with hlt | hge
      · rw [List.range_succ, List.map_append, listGetD_append_left _ _ _ _ (by simpa using hlt)]
        exact ih hlt
      · have hi : i = n := by omega
        subst hi
        rw [List.range_succ, List.map_append,
          listGetD_append_right _ _ _ _ (by simp)]
        simp

/-- The allocation id found at index i of the animation frame list: the k
hold-initial entries all reference allocation 0, the fade entries are fresh
allocations 1 … f, the slide entries f+1 … f+s, and the k hold-final entries
all reference allocation 1+f+s. -/
theorem createAnimationFrames_id_at (cfg : TaskConfig) (initial_seq final_seq : List Glyph)
    (insert_symbol : Glyph) (insert_pos : ℕ) (cmap : ColorMap) (k f s sh : ℕ)
    (i : ℕ) (hi : i < k + f + s + k) :
    ((createAnimationFrames cfg initial_seq final_seq insert_symbol insert_pos cmap
        k f s sh).getD i ((0, []) : Frame)).1 =
      if i < k then 0
      else if i < k + f then 1 + (i - k)
      else if i < k + f + s then 1 + f + (i - (k + f))
      else 1 + f + s := by
  unfold createAnimationFrames
  simp only [List.append_assoc]
  rcases Nat.lt_or_ge i k with h1 | h1
  · rw [listGetD_append_left _ _ _ _ (by simp only [List.length_replicate]; exact h1),
      listGetD_replicate _ _ _ _ h1, if_pos h1]
  · rw [listGetD_append_right _ _ _ _ (by simp only [List.length_replicate]; exact h1)]
    simp only [List.length_replicate]
    rcases Nat.lt_or_ge i (k + f) with h2 | h2
    · rw [listGetD_append_left _ _ _ _
          (by simp only [List.length_map, List.length_range]; omega),
        listGetD_map_range _ _ _ _ (by omega)]
      rw [if_neg (by omega), if_pos h2]
    · rw [listGetD_append_right _ _ _ _
          (by simp only [List.length_map, List.length_range]; omega)]
      simp only [List.length_map, List.length_range]
      rcases Nat.lt_or_ge i (k + f + s) with h3 | h3
      · rw [listGetD_append_left _ _ _ _
            (by simp only [List.length_map, List.length_range]; omega),
          listGetD_map_range _ _ _ _ (by omega)]
        rw [if_neg (by omega), if_neg (by omega), if_pos h3]
        dsimp only
        omega
      · rw [listGetD_append_right _ _ _ _
            (by simp only [List.length_map, List.length_range]; omega),
          listGetD_replicate _ _ _ _ (by simp only [List.length_map, List.length_range]; omega)]
        rw [if_neg (by omega), if_neg (by omega), if_neg (by omega)]

/-- Counterexample to claim C8 as stated: with the default frame counts the
first two entries of the frame sequence are the very same image object —
frames.extend([render(...)] * hold_frames) repeats ONE rendered image five
times — so entries of the frame sequence do alias the same underlying image. -/
theorem c8_counterexample :
    (createAnimationFrames defaultConfig ["●", "▲", "■"] ["●", "★", "▲", "■"] "★" 1 []
        5 8 10 8).get? 0 =
      (createAnimationFrames defaultConfig ["●", "▲", "■"] ["●", "★", "▲", "■"] "★" 1 []
        5 8 10 8).get? 1 ∧
    ((createAnimationFrames defaultConfig ["●", "▲", "■"] ["●", "★", "▲", "■"] "★" 1 []
        5 8 10 8).get? 0).isSome = true :=
  ⟨rfl, rfl⟩

/-- Claim C8 amended: each fade and slide frame is a freshly allocated image,
distinct from every other entry, but each hold phase appends ONE rendered
image object repeated hold_frames times.  Precisely, two entries of the frame
sequence reference the same image object exactly when they are the same
entry, both lie in the hold-initial block, or both lie in the hold-final
block.  (No frame is mutated after being appended — the builder only ever
appends.) -/
theorem c8_amended_aliasing_structure (cfg : TaskConfig)
    (initial_seq final_seq : List Glyph) (insert_symbol : Glyph) (insert_pos : ℕ)
    (cmap : ColorMap) (k f s sh : ℕ) (i j : ℕ)
    (hi : i < k + f + s + k) (hj : j < k + f + s + k) :
    ((createAnimationFrames cfg initial_seq final_seq insert_symbol insert_pos cmap
        k f s sh).getD i ((0, []) : Frame)).1 =
      ((createAnimationFrames cfg initial_seq final_seq insert_symbol insert_pos cmap
        k f s sh).getD j ((0, []) : Frame)).1 ↔
    (i = j ∨ (i < k ∧ j < k) ∨ (k + f + s ≤ i ∧ k + f + s ≤ j)) := by
  rw [createAnimationFrames_id_at cfg initial_seq final_seq insert_symbol insert_pos cmap
      k f s sh i hi,
    createAnimationFrames_id_at cfg initial_seq final_seq insert_symbol insert_pos cmap
      k f s sh j hj]
  split_ifs <;> omega

/-- Witness for the amended C8: entries 0 and 3 of a concrete default-count
frame list both lie in the hold-initial block and indeed share one image. -/
theorem c8_amended_witness :
    (((createAnimationFrames defaultConfig ["●", "▲", "■"] ["●", "★", "▲", "■"] "★" 1 []
        5 8 10 8).getD 0 ((0, []) : Frame)).1 =
      ((createAnimationFrames defaultConfig ["●", "▲", "■"] ["●", "★", "▲", "■"] "★" 1 []
        5 8 10 8).getD 3 ((0, []) : Frame)).1 ↔
    (0 = 3 ∨ (0 < 5 ∧ 3 < 5) ∨ (5 + 8 + 10 ≤ 0 ∧ 5 + 8 + 10 ≤ 3))) :=
  c8_amended_aliasing_structure defaultConfig ["●", "▲", "■"] ["●", "★", "▲", "■"] "★" 1 []
    5 8 10 8 0 3 (by decide) (by decide)

/-- At interpolation parameter 1 the slide loop, from any index at or past the
insertion position, draws exactly the post-insertion static row shifted one
slot right. -/
theorem slideRow_one_ge (cmap : ColorMap) (isx fsx sp cy : ℤ) (insert_pos : ℕ)
    (i : ℕ) (l : List Glyph) (h : insert_pos ≤ i) :
    slideRow cmap isx fsx sp cy insert_pos 1 i l = drawRow cmap fsx sp cy (i + 1) l := by
  induction l generalizing i with
  | nil => rfl
  | cons a rest ih =>
      simp only [slideRow, drawRow]
      rw [if_neg (show ¬ i < insert_pos by omega), ih (i + 1) (by omega)]
      have hx : ((isx + (i : ℤ) * sp : ℤ) : ℚ) +
          (((fsx + ((i : ℤ) + 1) * sp : ℤ) : ℚ) - ((isx + (i : ℤ) * sp : ℤ) : ℚ)) * 1 =
          ((fsx + ((i : ℤ) + 1) * sp : ℤ) : ℚ) := by push_cast; ring
      rw [hx, pythonInt_intCast]
      have hc : ((i + 1 : ℕ) : ℤ) = (i : ℤ) + 1 := by push_cast; ring
      rw [hc]

/-- At interpolation parameter 1 the slide loop, from any index not past the
insertion position, draws the post-insertion static row: the symbols before
the insertion index keep their slot, those at or after it move one slot
right. -/
theorem slideRow_one_split (cmap : ColorMap) (isx fsx sp cy : ℤ) (insert_pos : ℕ)
    (i : ℕ) (l : List Glyph) (h : i ≤ insert_pos) :
    slideRow cmap isx fsx sp cy insert_pos 1 i l =
      drawRow cmap fsx sp cy i (l.take (insert_pos - i)) ++
        drawRow cmap fsx sp cy (insert_pos + 1) (l.drop (insert_pos - i)) := by
  induction l generalizing i with
  | nil => simp [slideRow, drawRow]
  | cons a rest ih =>
      rcases Nat.lt_or_ge i insert_pos with hlt | hge
      · have hs : insert_pos - i = (insert_pos - (i + 1)) + 1 := by omega
        rw [hs, List.take_succ_cons, List.drop_succ_cons]
        simp only [slideRow, drawRow]
        rw [if_pos hlt, ih (i + 1) (by omega)]
        have hx : ((isx + (i : ℤ) * sp : ℤ) : ℚ) +
            (((fsx + (i : ℤ) * sp : ℤ) : ℚ) - ((isx + (i : ℤ) * sp : ℤ) : ℚ)) * 1 =
            ((fsx + (i : ℤ) * sp : ℤ) : ℚ) := by push_cast; ring
        rw [hx, pythonInt_intCast, List.cons_append]
      · have hi : i = insert_pos := by omega
        subst hi
        rw [Nat.sub_self, List.take_zero, List.drop_zero]
        simp only [drawRow, List.nil_append]
        exact slideRow_one_ge cmap isx fsx sp cy i i (a :: rest) (le_refl i)

/-- The last slide-and-shift frame (interpolation parameter 1) decomposed:
every original symbol before the insertion index sits at its post-insertion
slot i, every original symbol at or after it at post-insertion slot i + 1,
and the inserted symbol at post-insertion slot insert_pos on the vertical
centre line. -/
theorem renderSlideShiftFrame_one (cfg : TaskConfig) (sequence : List Glyph)
    (new_symbol : Glyph) (insert_pos : ℕ) (cmap : ColorMap) :
    renderSlideShiftFrame cfg sequence new_symbol insert_pos cmap 1 =
      drawRow cmap (startX cfg (sequence.length + 1)) (spacing cfg.symbol_size)
          (centerY cfg) 0 (sequence.take insert_pos) ++
        drawRow cmap (startX cfg (sequence.length + 1)) (spacing cfg.symbol_size)
          (centerY cfg) (insert_pos + 1) (sequence.drop insert_pos) ++
        [⟨new_symbol,
          startX cfg (sequence.length + 1) + (insert_pos : ℤ) * spacing cfg.symbol_size,
          centerY cfg, cmap.lookup new_symbol, 255⟩] := by
  simp only [renderSlideShiftFrame]
  rw [slideRow_one_split _ _ _ _ _ _ 0 _ (Nat.zero_le insert_pos), Nat.sub_zero]
  have hy : ((centerY cfg - cfg.symbol_size : ℤ) : ℚ) +
      (((centerY cfg : ℤ) : ℚ) - ((centerY cfg - cfg.symbol_size : ℤ) : ℚ)) * 1 =
      ((centerY cfg : ℤ) : ℚ) := by push_cast; ring
  rw [hy, pythonInt_intCast]

/-- The static render of the spliced after-sequence decomposed at the
insertion index: the same three blocks as the final slide frame, with the
inserted symbol drawn in sequence order rather than last. -/
theorem renderSequence_splice (cfg : TaskConfig) (sequence : List Glyph)
    (new_symbol : Glyph) (insert_pos : ℕ) (cmap : ColorMap)
    (hpos : insert_pos ≤ sequence.length) :
    renderSequence cfg (sequence.take insert_pos ++ new_symbol :: sequence.drop insert_pos)
        cmap =
      drawRow cmap (startX cfg (sequence.length + 1)) (spacing cfg.symbol_size)
          (centerY cfg) 0 (sequence.take insert_pos) ++
        ⟨new_symbol,
          startX cfg (sequence.length + 1) + (insert_pos : ℤ) * spacing cfg.symbol_size,
          centerY cfg, cmap.lookup new_symbol, 255⟩ ::
          drawRow cmap (startX cfg (sequence.length + 1)) (spacing cfg.symbol_size)
            (centerY cfg) (insert_pos + 1) (sequence.drop insert_pos) := by
  have hlen : (sequence.take insert_pos ++ new_symbol :: sequence.drop insert_pos).length =
      sequence.length + 1 := by
    simp only [List.length_append, List.length_cons, List.length_take, List.length_drop]
    omega
  unfold renderSequence
  rw [hlen, drawRow_append]
  rw [List.length_take, Nat.min_eq_left hpos]
  simp only [drawRow, Nat.zero_add]

/-- Claim C1: for every insert position 0 ≤ p ≤ len(before) the last frame of
the slide-and-shift phase — frame index k+f+(s-1) of the animation, rendered
at progress ((s-1)+1)/s = 1 — places each original symbol at index i at
x = final_start_x + i*spacing (for i < p) or final_start_x + (i+1)*spacing
(for i ≥ p) with y at the vertical centre, and the inserted symbol at
x = final_start_x + p*spacing, y at the vertical centre; its draw calls are a
permutation of (i.e. position-for-position identical to) the independently
rendered "after" static image of the spliced sequence. -/
theorem c1_final_slide_frame_matches_after (cfg : TaskConfig) (sequence : List Glyph)
    (new_symbol : Glyph) (insert_pos : ℕ) (cmap : ColorMap) (k f s sh : ℕ)
    (hpos : insert_pos ≤ sequence.length) (hs : 0 < s) :
    ((createAnimationFrames cfg sequence
        (sequence.take insert_pos ++ new_symbol :: sequence.drop insert_pos) new_symbol
        insert_pos cmap k f s sh).getD (k + f + (s - 1)) ((0, []) : Frame)).2 =
      renderSlideShiftFrame cfg sequence new_symbol insert_pos cmap 1 ∧
    renderSlideShiftFrame cfg sequence new_symbol insert_pos cmap 1 =
      drawRow cmap (startX cfg (sequence.length + 1)) (spacing cfg.symbol_size)
          (centerY cfg) 0 (sequence.take insert_pos) ++
        drawRow cmap (startX cfg (sequence.length + 1)) (spacing cfg.symbol_size)
          (centerY cfg) (insert_pos + 1) (sequence.drop insert_pos) ++
        [⟨new_symbol,
          startX cfg (sequence.length + 1) + (insert_pos : ℤ) * spacing cfg.symbol_size,
          centerY cfg, cmap.lookup new_symbol, 255⟩] ∧
    (renderSlideShiftFrame cfg sequence new_symbol insert_pos cmap 1).Perm
      (renderSequence cfg
        (sequence.take insert_pos ++ new_symbol :: sequence.drop insert_pos) cmap) := by
  have hq : (((s - 1 : ℕ) : ℚ) + 1) / (s : ℚ) = 1 := by
    have h1 : ((s - 1 : ℕ) : ℚ) = (s : ℚ) - 1 := by
      rw [Nat.cast_sub hs]
      norm_num
    rw [h1, sub_add_cancel]
    exact div_self (Nat.cast_ne_zero.mpr (by omega))
  refine ⟨?_, renderSlideShiftFrame_one cfg sequence new_symbol insert_pos cmap, ?_⟩
  · unfold createAnimationFrames
    simp only [List.append_assoc]
    rw [listGetD_append_right _ _ _ _ (by simp only [List.length_replicate]; omega)]
    simp only [List.length_replicate]
    rw [listGetD_append_right _ _ _ _
        (by simp only [List.length_map, List.length_range]; omega)]
    simp only [List.length_map, List.length_range]
    rw [listGetD_append_left _ _ _ _
        (by simp only [List.length_map, List.length_range]; omega),
      listGetD_map_range _ _ _ _ (by omega)]
    have hidx : k + f + (s - 1) - k - f = s - 1 := by omega
    rw [hidx]
    dsimp only
    rw [hq]
  · rw [renderSlideShiftFrame_one, renderSequence_splice _ _ _ _ _ hpos,
      List.append_assoc]
    exact List.Perm.append_left _ (List.perm_append_singleton _ _)

/-- Witness for C1 at the default config, before = ["●","▲","■"], inserting
"★" at position 1 with the default frame counts. -/
theorem c1_witness :
    ((createAnimationFrames defaultConfig ["●", "▲", "■"]
        ((["●", "▲", "■"] : List Glyph).take 1 ++ "★" :: (["●", "▲", "■"] : List Glyph).drop 1)
        "★" 1 [] 5 8 10 8).getD (5 + 8 + (10 - 1)) ((0, []) : Frame)).2 =
      renderSlideShiftFrame defaultConfig ["●", "▲", "■"] "★" 1 [] 1 ∧
    renderSlideShiftFrame defaultConfig ["●", "▲", "■"] "★" 1 [] 1 =
      drawRow [] (startX defaultConfig ((["●", "▲", "■"] : List Glyph).length + 1))
          (spacing defaultConfig.symbol_size) (centerY defaultConfig) 0
          ((["●", "▲", "■"] : List Glyph).take 1) ++
        drawRow [] (startX defaultConfig ((["●", "▲", "■"] : List Glyph).length + 1))
          (spacing defaultConfig.symbol_size) (centerY defaultConfig) (1 + 1)
          ((["●", "▲", "■"] : List Glyph).drop 1) ++
        [⟨"★", startX defaultConfig ((["●", "▲", "■"] : List Glyph).length + 1) +
            (1 : ℤ) * spacing defaultConfig.symbol_size,
          centerY defaultConfig, List.lookup "★" [], 255⟩] ∧
    (renderSlideShiftFrame defaultConfig ["●", "▲", "■"] "★" 1 [] 1).Perm
      (renderSequence defaultConfig
        ((["●", "▲", "■"] : List Glyph).take 1 ++ "★" :: (["●", "▲", "■"] : List Glyph).drop 1)
        []) :=
  c1_final_slide_frame_matches_after defaultConfig ["●", "▲", "■"] "★" 1 [] 5 8 10 8
    (by decide) (by decide)
